import Mathlib

/-!
Verification of the hdm document-management core against its design spec.

The Lean definitions in this file are a shallow embedding of the TypeScript
source: the permission service (DocumentPermissionService), the download-token
service (DownloadLinkService / DownloadTokenRepository) and the document search
engine (DocumentRepository.search). Database tables are embedded as lists of
row structures; each repository call is a pure function on that state, and the
possibility of a storage failure is an explicit flag on the state. Timestamps
are integers (milliseconds). SQLite LIKE is ASCII case-insensitive, which is
modelled by lowercasing both sides of a containment test.
-/

set_option maxHeartbeats 1000000

namespace HDM

/-! String primitives: JavaScript trim / toLowerCase and substring containment. -/

/-- Needle-at-front test on character lists. -/
def leadsWith : List Char → List Char → Bool
  | [], _ => true
  | _ :: _, [] => false
  | a :: as, b :: bs => a == b && leadsWith as bs

/-- Containment of the needle (first argument) anywhere in the haystack. -/
def containsSub (needle : List Char) : List Char → Bool
  | [] => leadsWith needle []
  | c :: rest => leadsWith needle (c :: rest) || containsSub needle rest

/-- JavaScript String.prototype.toLowerCase, restricted to per-character lowering. -/
def strLower (s : String) : String := String.mk (s.toList.map Char.toLower)

/-- JavaScript String.prototype.trim: strip leading and trailing whitespace. -/
def jsTrim (s : String) : String :=
  String.mk (((s.toList.dropWhile Char.isWhitespace).reverse.dropWhile Char.isWhitespace).reverse)

/-- Literal (case-sensitive) substring containment on strings. -/
def strHas (hay needle : String) : Bool := containsSub needle.toList hay.toList

/-- SQLite LIKE with a pattern of the form percent-term-percent: ASCII
case-insensitive containment, modelled by lowering both sides. -/
def sqlLikeHas (hay needle : String) : Bool := strHas (strLower hay) (strLower needle)

/-! Access-control model: DocumentPermissionService over the
document_permissions table. -/

inductive UserRole where
  | admin
  | user
  deriving DecidableEq

/-- The document fields checkDocumentAccess receives. -/
structure DocRef where
  id : String
  uploadedBy : String
  deriving DecidableEq

/-- One row of the document_permissions table. -/
structure PermissionRow where
  id : String
  documentId : String
  userId : String
  permission : String
  grantedBy : String
  deriving DecidableEq

/-- The permission store: its rows, plus a flag modelling whether a read
against it raises a storage error. -/
structure PermDb where
  rows : List PermissionRow
  lookupFails : Bool
  deriving DecidableEq

/-- DocumentPermissionRepository.findByDocumentId: select where documentId matches. -/
def findByDocumentId (db : PermDb) (documentId : String) : Except Unit (List PermissionRow) :=
  if db.lookupFails then .error ()
  else .ok (db.rows.filter (fun p => p.documentId == documentId))

/-- DocumentPermissionRepository.findByDocumentAndUser: select where both
documentId and userId match, limit 1. -/
def findByDocumentAndUser (db : PermDb) (documentId userId : String) :
    Except Unit (Option PermissionRow) :=
  if db.lookupFails then .error ()
  else .ok ((db.rows.filter (fun p => p.documentId == documentId && p.userId == userId)).head?)

/-- DocumentPermissionService.checkDocumentAccess: admin role allows, owner
allows, otherwise any permission row for the (document, user) pair allows;
a storage error during the lookup is caught and denies. The state is returned
unchanged: the function performs no writes. -/
def checkDocumentAccess (db : PermDb) (userId : String) (userRole : UserRole)
    (document : DocRef) : Bool × PermDb :=
  if userRole = UserRole.admin then (true, db)
  else if document.uploadedBy == userId then (true, db)
  else
    match findByDocumentId db document.id with
    | .ok permissions => (permissions.any (fun p => p.userId == userId), db)
    | .error _ => (false, db)

inductive GrantError where
  | conflict
  | storage
  deriving DecidableEq

/-- DocumentPermissionService.grantPermission: look up the (document, user)
pair; an existing grant raises the conflict error and nothing is written;
otherwise a new row is inserted. A storage failure in the lookup propagates. -/
def grantPermission (db : PermDb) (documentId reqUserId reqPermission grantedBy freshId : String) :
    Except GrantError PermissionRow × PermDb :=
  match findByDocumentAndUser db documentId reqUserId with
  | .error _ => (.error GrantError.storage, db)
  | .ok (some _) => (.error GrantError.conflict, db)
  | .ok none =>
    let row : PermissionRow :=
      { id := freshId, documentId := documentId, userId := reqUserId,
        permission := reqPermission, grantedBy := grantedBy }
    (.ok row, { db with rows := db.rows ++ [row] })

/-! Download-token model: DownloadLinkService over the download_tokens table
(DownloadTokenRepository). -/

/-- One row of the download_tokens table. -/
structure TokenRow where
  id : String
  documentId : String
  token : String
  expiresAt : Int
  usedAt : Option Int
  createdBy : String
  createdAt : Int
  deriving DecidableEq

/-- The token store: its rows, plus flags modelling whether the mark-used
update or the cleanup delete raises a storage error. -/
structure TokenDb where
  rows : List TokenRow
  updateFails : Bool
  deleteFails : Bool
  deriving DecidableEq

/-- DownloadTokenRepository.findByToken: select where the secret matches, limit 1. -/
def findByToken (db : TokenDb) (token : String) : Option TokenRow :=
  (db.rows.filter (fun r => r.token == token)).head?

/-- DownloadTokenRepository.markAsUsed: an unconditional update setting usedAt
on every row whose id matches (no guard on usedAt or expiresAt), returning
whether a row was affected; a storage error is caught and reported as false
with no rows changed. -/
def markAsUsed (db : TokenDb) (now : Int) (id : String) : Bool × TokenDb :=
  if db.updateFails then (false, db)
  else
    (db.rows.any (fun r => r.id == id),
     { db with rows := db.rows.map (fun r => if r.id == id then { r with usedAt := some now } else r) })

/-- DownloadTokenRepository.cleanup: select the rows with expiresAt strictly in
the past, count them, delete them, and return the count; a storage error is
caught and reported as count 0 with no rows deleted. -/
def cleanup (db : TokenDb) (now : Int) : Nat × TokenDb :=
  let expired := db.rows.filter (fun r => decide (r.expiresAt < now))
  if db.deleteFails then (0, db)
  else (expired.length, { db with rows := db.rows.filter (fun r => !decide (r.expiresAt < now)) })

/-- DownloadLinkService.cleanupExpiredTokens simply delegates to the repository. -/
def cleanupExpiredTokens (db : TokenDb) (now : Int) : Nat × TokenDb := cleanup db now

/-- The record DownloadLinkService.validateAndGetDocument returns. -/
structure TokenValidation where
  documentId : String
  isValid : Bool
  isExpired : Bool
  isUsed : Bool
  deriving DecidableEq

/-- DownloadLinkService.validateAndGetDocument: look the secret up; a missing
token is invalid; otherwise the token is valid iff it is neither expired
(expiresAt strictly before now) nor already used (usedAt set). -/
def validateAndGetDocument (db : TokenDb) (now : Int) (token : String) : TokenValidation :=
  match findByToken db token with
  | none => { documentId := "", isValid := false, isExpired := false, isUsed := false }
  | some r =>
    let isExpired := decide (r.expiresAt < now)
    let isUsed := r.usedAt.isSome
    { documentId := r.documentId, isValid := !isExpired && !isUsed,
      isExpired := isExpired, isUsed := isUsed }

/-- The second half of DownloadLinkService.useDownloadToken, after the
validation read: on an invalid validation return null; otherwise re-fetch the
token by secret, mark it used if found (ignoring the result of that write),
and return the document id recorded in the validation. -/
def redeemCommit (db : TokenDb) (now : Int) (token : String) (validation : TokenValidation) :
    Option String × TokenDb :=
  if !validation.isValid then (none, db)
  else
    match findByToken db token with
    | some r => (some validation.documentId, (markAsUsed db now r.id).2)
    | none => (some validation.documentId, db)

/-- DownloadLinkService.useDownloadToken: validate, then commit. The two
halves are separate awaited store round-trips in the source, not one atomic
conditional update. -/
def useDownloadToken (db : TokenDb) (now : Int) (token : String) : Option String × TokenDb :=
  redeemCommit db now token (validateAndGetDocument db now token)

/-- One legal interleaving of two concurrent useDownloadToken calls on the
same secret: both validation reads happen before either commit. Each caller
executes exactly the two halves of useDownloadToken in order; only the
interleaving across callers differs from the sequential case. -/
def concurrentDoubleRedeem (db : TokenDb) (now : Int) (token : String) :
    (Option String × Option String) × TokenDb :=
  let v1 := validateAndGetDocument db now token
  let v2 := validateAndGetDocument db now token
  let step1 := redeemCommit db now token v1
  let step2 := redeemCommit step1.2 now token v2
  ((step1.1, step2.1), step2.2)

/-! Search-engine model: DocumentRepository.search over the documents,
document_tags and document_metadata tables. -/

/-- One row of the documents table. -/
structure DocRow where
  id : String
  filename : String
  originalName : String
  mimeType : String
  size : Int
  path : String
  uploadedBy : String
  createdAt : Int
  updatedAt : Int
  deriving DecidableEq

/-- One row of the document_tags table (the fields search reads). -/
structure TagRow where
  documentId : String
  tag : String
  deriving DecidableEq

/-- One row of the document_metadata table (the fields search reads). -/
structure MetaRow where
  documentId : String
  key : String
  value : String
  deriving DecidableEq

/-- The document index: documents plus the tag and metadata side-tables. -/
structure DocDb where
  documents : List DocRow
  tags : List TagRow
  metadata : List MetaRow
  deriving DecidableEq

/-- DocumentSearchOptions. Absent optional fields are none; the metadata
record is embedded as a key/value association list. -/
structure SearchOptions where
  page : Nat
  limit : Nat
  filename : Option String
  mimeType : Option String
  uploadedBy : Option String
  tags : Option (List String)
  metadata : Option (List (String × String))
  sortBy : Option String
  sortOrder : Option String
  deriving DecidableEq

structure PageInfo where
  page : Nat
  limit : Nat
  total : Nat
  totalPages : Nat
  deriving DecidableEq

structure SearchResult where
  data : List DocRow
  pagination : PageInfo
  deriving DecidableEq

/-- The empty page search returns from each of its short-circuits. -/
def emptySearchResult (page limit : Nat) : SearchResult :=
  { data := [], pagination := { page := page, limit := limit, total := 0, totalPages := 0 } }

/-- Filename clause of the significance gate: trimmed length at least 2. -/
def fnCriterion (o : SearchOptions) : Bool :=
  match o.filename with
  | some f => decide (2 ≤ (jsTrim f).length)
  | none => false

/-- Mime-type clause of the significance gate: nonblank after trimming. -/
def mtCriterion (o : SearchOptions) : Bool :=
  match o.mimeType with
  | some m => decide (1 ≤ (jsTrim m).length)
  | none => false

/-- Tag clause of the significance gate: some tag of trimmed length at least 2. -/
def tagCriterion (o : SearchOptions) : Bool :=
  match o.tags with
  | some ts => !ts.isEmpty && ts.any (fun t => decide (2 ≤ (jsTrim t).length))
  | none => false

/-- Metadata clause of the significance gate: some entry with a nonblank key
and a value of trimmed length at least 2. -/
def mdCriterion (o : SearchOptions) : Bool :=
  match o.metadata with
  | some kvs =>
    !kvs.isEmpty &&
      kvs.any (fun kv => decide (1 ≤ (jsTrim kv.1).length) && decide (2 ≤ (jsTrim kv.2).length))
  | none => false

/-- The significance gate of search: a filename of trimmed length at least 2,
a nonblank mime type, some tag of trimmed length at least 2, or some metadata
entry with a nonblank key and a value of trimmed length at least 2. The
uploadedBy scope is deliberately not consulted. -/
def hasSearchCriteria (o : SearchOptions) : Bool :=
  fnCriterion o || mtCriterion o || tagCriterion o || mdCriterion o

/-- The lowercased trimmed filename search term, present when the filename
criterion clears the 2-character bar. -/
def filenameTermOf (o : SearchOptions) : Option String :=
  match o.filename with
  | some f => if 2 ≤ (jsTrim f).length then some (strLower (jsTrim f)) else none
  | none => none

/-- The filename condition search pushes: LIKE containment of the term in the
stored filename or in the original upload-time name. -/
def filenameCond (term : String) (d : DocRow) : Bool :=
  sqlLikeHas d.filename term || sqlLikeHas d.originalName term

/-- The primary (filename / mime type / owner) where-clause of search. A
field left out, or one JavaScript treats as falsy, contributes no condition. -/
def mainCond (o : SearchOptions) (d : DocRow) : Bool :=
  (match filenameTermOf o with
   | some term => filenameCond term d
   | none => true) &&
  (match o.mimeType with
   | some m => if m == "" then true else d.mimeType == m
   | none => true) &&
  (match o.uploadedBy with
   | some u => if u == "" then true else d.uploadedBy == u
   | none => true)

/-- The requested tags, lowercased and trimmed, keeping those of length at
least 2 — the meaningful tag set of search. -/
def meaningfulTags (tags : List String) : List String :=
  (tags.map (fun t => jsTrim (strLower t))).filter (fun t => decide (2 ≤ t.length))

/-- The requested metadata entries with a nonblank key and a value of trimmed
length at least 2 — the meaningful metadata set of search. -/
def meaningfulMeta (kvs : List (String × String)) : List (String × String) :=
  kvs.filter (fun kv => decide (1 ≤ (jsTrim kv.1).length) && decide (2 ≤ (jsTrim kv.2).length))

/-- SELECT DISTINCT, with the already-seen ids accumulated. -/
def dedupAux (seen : List String) : List String → List String
  | [] => []
  | a :: as => if seen.contains a then dedupAux seen as else a :: dedupAux (a :: seen) as

/-- SELECT DISTINCT: the first occurrence of each id is kept. -/
def dedupStr (l : List String) : List String := dedupAux [] l

/-- The distinct document ids having any of the meaningful requested tags. -/
def tagDocIds (db : DocDb) (ts : List String) : List String :=
  dedupStr ((db.tags.filter (fun r => (meaningfulTags ts).contains r.tag)).map (fun r => r.documentId))

/-- The metadata where-clause: some requested entry whose trimmed key matches
exactly and whose trimmed value is LIKE-contained in the row value. -/
def metaRowCond (kvs : List (String × String)) (r : MetaRow) : Bool :=
  kvs.any (fun kv => r.key == jsTrim kv.1 && sqlLikeHas r.value (jsTrim kv.2))

/-- The distinct document ids having any metadata entry matching a meaningful
requested key/value pair. -/
def metaDocIds (db : DocDb) (kvs : List (String × String)) : List String :=
  dedupStr ((db.metadata.filter (fun r => metaRowCond (meaningfulMeta kvs) r)).map (fun r => r.documentId))

/-- The tag sub-filter phase of search: the resolved id set (none when tags
were not requested, some empty without a query when no requested tag is
meaningful) together with the number of storage queries it issued. -/
def tagPhase (db : DocDb) (o : SearchOptions) : Option (List String) × Nat :=
  match o.tags with
  | some ts =>
    if ts.isEmpty then (none, 0)
    else if (meaningfulTags ts).isEmpty then (some [], 0)
    else (some (tagDocIds db ts), 1)
  | none => (none, 0)

/-- The metadata sub-filter phase of search, analogous to the tag phase. -/
def metaPhase (db : DocDb) (o : SearchOptions) : Option (List String) × Nat :=
  match o.metadata with
  | some kvs =>
    if kvs.isEmpty then (none, 0)
    else if (meaningfulMeta kvs).isEmpty then (some [], 0)
    else (some (metaDocIds db kvs), 1)
  | none => (none, 0)

/-- Whether a resolved sub-filter id set came back empty (triggering the
short-circuit return in search). -/
def idsEmpty : Option (List String) → Bool
  | some l => l.isEmpty
  | none => false

/-- Membership of a document id in a resolved sub-filter id set; an absent
set constrains nothing. -/
def inIds : Option (List String) → String → Bool
  | none, _ => true
  | some l, i => l.contains i

/-- Ordered insertion used to model ORDER BY. -/
def insertBy (le : DocRow → DocRow → Bool) (d : DocRow) : List DocRow → List DocRow
  | [] => [d]
  | e :: es => if le d e then d :: e :: es else e :: insertBy le d es

/-- Insertion sort used to model ORDER BY. -/
def sortRows (le : DocRow → DocRow → Bool) : List DocRow → List DocRow
  | [] => []
  | d :: ds => insertBy le d (sortRows le ds)

/-- The ORDER BY comparison of search: sort column filename, size or
createdAt (default createdAt), ascending when requested, else descending. -/
def searchLe (o : SearchOptions) (a b : DocRow) : Bool :=
  let keyLe : Bool :=
    match o.sortBy with
    | some s =>
      if s == "filename" then decide (a.filename ≤ b.filename)
      else if s == "size" then decide (a.size ≤ b.size)
      else decide (a.createdAt ≤ b.createdAt)
    | none => decide (a.createdAt ≤ b.createdAt)
  match o.sortOrder with
  | some s => if s == "asc" then keyLe else !keyLe
  | none => !keyLe

/-- DocumentRepository.search. The second component counts the storage
queries issued: the significance gate returns before any query; an empty
meaningful tag or metadata term set returns before that sub-query; a resolved
sub-filter id set that is empty returns before the count and fetch queries;
otherwise the count query runs, and the fetch query only when the total is
nonzero. Sub-filter id sets are intersected with the primary conditions by
conjunction. -/
def search (db : DocDb) (o : SearchOptions) : SearchResult × Nat :=
  if !hasSearchCriteria o then (emptySearchResult o.page o.limit, 0)
  else
    let tIds := (tagPhase db o).1
    let q1 := (tagPhase db o).2
    if idsEmpty tIds then (emptySearchResult o.page o.limit, q1)
    else
      let mIds := (metaPhase db o).1
      let q2 := q1 + (metaPhase db o).2
      if idsEmpty mIds then (emptySearchResult o.page o.limit, q2)
      else
        let matched := db.documents.filter
          (fun d => mainCond o d && inIds tIds d.id && inIds mIds d.id)
        let total := matched.length
        if total = 0 then (emptySearchResult o.page o.limit, q2 + 1)
        else
          let sorted := sortRows (searchLe o) matched
          let pageData := (sorted.drop ((o.page - 1) * o.limit)).take o.limit
          ({ data := pageData,
             pagination :=
               { page := o.page, limit := o.limit, total := total,
                 totalPages := (total + o.limit - 1) / o.limit } },
           q2 + 2)

/-! Theorems about the access resolver. -/

/-- C2: for every state, principal and document, checkDocumentAccess returns
true exactly when the principal is the admin role, or equals the document's
uploading user, or some permission grant of any level exists for the
(document, principal) pair; and it performs no writes (the permission store
is returned unchanged). -/
theorem checkDocumentAccess_characterization (db : PermDb) (userId : String)
    (role : UserRole) (doc : DocRef) (hok : db.lookupFails = false) :
    ((checkDocumentAccess db userId role doc).1 = true ↔
      (role = UserRole.admin ∨ doc.uploadedBy = userId ∨
        ∃ p ∈ db.rows, p.documentId = doc.id ∧ p.userId = userId)) ∧
    (checkDocumentAccess db userId role doc).2 = db := by
  unfold checkDocumentAccess findByDocumentId
  by_cases hr : role = UserRole.admin
  · simp [hr]
  · by_cases ho : doc.uploadedBy = userId
    · simp [hr, ho]
    · simp only [hok, Bool.false_eq_true, if_false, if_neg hr, beq_iff_eq, if_neg ho]
      constructor
      · rw [List.any_eq_true]
        constructor
        · rintro ⟨p, hp, hu⟩
          rw [List.mem_filter] at hp
          exact Or.inr (Or.inr ⟨p, hp.1, by simpa using hp.2, by simpa using hu⟩)
        · rintro (h | h | ⟨p, hp, hd, hu⟩)
          · exact absurd h hr
          · exact absurd h ho
          · exact ⟨p, List.mem_filter.2 ⟨hp, by simpa using hd⟩, by simpa using hu⟩
      · trivial

def permRowC2 : PermissionRow :=
  { id := "perm-1", documentId := "doc-1", userId := "user-2",
    permission := "read", grantedBy := "user-1" }

def dbC2 : PermDb := { rows := [permRowC2], lookupFails := false }

def docC2 : DocRef := { id := "doc-1", uploadedBy := "user-1" }

def granteeC2 : String := "user-2"

/-- Witness for C2: a non-admin, non-owner principal holding a read grant is
allowed, and the store is unchanged. -/
theorem checkDocumentAccess_characterization_witness :
    dbC2.lookupFails = false ∧
    (((checkDocumentAccess dbC2 granteeC2 UserRole.user docC2).1 = true ↔
      (UserRole.user = UserRole.admin ∨ docC2.uploadedBy = granteeC2 ∨
        ∃ p ∈ dbC2.rows, p.documentId = docC2.id ∧ p.userId = granteeC2)) ∧
    (checkDocumentAccess dbC2 granteeC2 UserRole.user docC2).2 = dbC2) :=
  ⟨rfl, checkDocumentAccess_characterization dbC2 granteeC2 UserRole.user docC2 rfl⟩

/-- C3: when the principal is neither admin nor the owner and the permission
store lookup fails, checkDocumentAccess denies (returns false); the error is
swallowed rather than propagated, and no write happens. -/
theorem checkDocumentAccess_failClosed (db : PermDb) (userId : String)
    (role : UserRole) (doc : DocRef) (hfail : db.lookupFails = true)
    (hrole : role ≠ UserRole.admin) (hown : doc.uploadedBy ≠ userId) :
    checkDocumentAccess db userId role doc = (false, db) := by
  unfold checkDocumentAccess findByDocumentId
  simp [hfail, hrole, hown]

def dbC3 : PermDb := { rows := [], lookupFails := true }

def docC3 : DocRef := { id := "doc-31", uploadedBy := "user-31" }

def userC3 : String := "user-32"

/-- Witness for C3: with a failing store, a plain user who is not the owner
is denied. -/
theorem checkDocumentAccess_failClosed_witness :
    dbC3.lookupFails = true ∧ UserRole.user ≠ UserRole.admin ∧
    docC3.uploadedBy ≠ userC3 ∧
    checkDocumentAccess dbC3 userC3 UserRole.user docC3 = (false, dbC3) :=
  ⟨rfl, by decide, by decide,
    checkDocumentAccess_failClosed dbC3 userC3 UserRole.user docC3 rfl (by decide) (by decide)⟩

/-- C9: when a grant for the (document, user) pair already exists,
grantPermission fails with the conflict error and performs no write — the
store, and in particular the existing grant, is unchanged. -/
theorem grantPermission_conflict_spec (db : PermDb)
    (documentId reqUserId reqPermission grantedBy freshId : String)
    (hok : db.lookupFails = false)
    (hex : ∃ p ∈ db.rows, p.documentId = documentId ∧ p.userId = reqUserId) :
    (grantPermission db documentId reqUserId reqPermission grantedBy freshId).1 =
      Except.error GrantError.conflict ∧
    (grantPermission db documentId reqUserId reqPermission grantedBy freshId).2 = db := by
  unfold grantPermission findByDocumentAndUser
  obtain ⟨p, hp, hd, hu⟩ := hex
  have hmem : p ∈ db.rows.filter (fun q => q.documentId == documentId && q.userId == reqUserId) := by
    rw [List.mem_filter]
    exact ⟨hp, by simp [hd, hu]⟩
  have hne : db.rows.filter (fun q => q.documentId == documentId && q.userId == reqUserId) ≠ [] := by
    intro hnil
    rw [hnil] at hmem
    exact absurd hmem (List.not_mem_nil p)
  rcases hh : (db.rows.filter (fun q => q.documentId == documentId && q.userId == reqUserId)).head? with _ | q
  · rw [List.head?_eq_none_iff] at hh
    exact absurd hh hne
  · simp [hok, hh]

def permRowC9 : PermissionRow :=
  { id := "perm-91", documentId := "doc-91", userId := "user-92",
    permission := "write", grantedBy := "user-91" }

def dbC9 : PermDb := { rows := [permRowC9], lookupFails := false }

def docIdC9 : String := "doc-91"

def granteeC9 : String := "user-92"

def levelC9 : String := "admin"

def grantorC9 : String := "user-93"

def freshIdC9 : String := "perm-92"

/-- Witness for C9: a second grant for the same pair is rejected with the
conflict error and the store is unchanged. -/
theorem grantPermission_conflict_spec_witness :
    dbC9.lookupFails = false ∧
    (∃ p ∈ dbC9.rows, p.documentId = docIdC9 ∧ p.userId = granteeC9) ∧
    ((grantPermission dbC9 docIdC9 granteeC9 levelC9 grantorC9 freshIdC9).1 =
      Except.error GrantError.conflict ∧
    (grantPermission dbC9 docIdC9 granteeC9 levelC9 grantorC9 freshIdC9).2 = dbC9) :=
  ⟨rfl, ⟨permRowC9, by decide, by decide, by decide⟩,
    grantPermission_conflict_spec dbC9 docIdC9 granteeC9 levelC9 grantorC9 freshIdC9 rfl
      ⟨permRowC9, by decide, by decide, by decide⟩⟩

/-! Theorems about the download-token lifecycle. -/

/-- C7: with the store healthy, cleanup returns exactly the number of tokens
whose expiry is strictly in the past, keeps exactly the tokens whose expiry
has not passed (used or not), and in particular never removes an unexpired
token even if it is already used. -/
theorem cleanup_spec (db : TokenDb) (now : Int) (hok : db.deleteFails = false) :
    (cleanup db now).1 = (db.rows.filter (fun r => decide (r.expiresAt < now))).length ∧
    (cleanup db now).2.rows = db.rows.filter (fun r => !decide (r.expiresAt < now)) ∧
    (∀ r ∈ db.rows, ¬(r.expiresAt < now) → r ∈ (cleanup db now).2.rows) := by
  unfold cleanup
  refine ⟨by simp [hok], by simp [hok], ?_⟩
  intro r hr hexp
  simp only [hok, Bool.false_eq_true, if_false]
  rw [List.mem_filter]
  exact ⟨hr, by simp [hexp]⟩

def tokC7a : TokenRow :=
  { id := "tok-71", documentId := "doc-71", token := "sec-71", expiresAt := 50,
    usedAt := some 40, createdBy := "user-71", createdAt := 0 }

def tokC7b : TokenRow :=
  { id := "tok-72", documentId := "doc-71", token := "sec-72", expiresAt := 60,
    usedAt := none, createdBy := "user-71", createdAt := 0 }

def tokC7c : TokenRow :=
  { id := "tok-73", documentId := "doc-72", token := "sec-73", expiresAt := 200,
    usedAt := some 70, createdBy := "user-71", createdAt := 0 }

def dbC7 : TokenDb := { rows := [tokC7a, tokC7b, tokC7c], updateFails := false, deleteFails := false }

/-- Witness for C7: of three tokens — expired used, expired unused, unexpired
used — cleanup removes two and keeps exactly the unexpired (used) one. -/
theorem cleanup_spec_witness :
    dbC7.deleteFails = false ∧
    (cleanup dbC7 100).1 = 2 ∧ (cleanup dbC7 100).2.rows = [tokC7c] ∧
    ((cleanup dbC7 100).1 =
        (dbC7.rows.filter (fun r => decide (r.expiresAt < 100))).length ∧
      (cleanup dbC7 100).2.rows = dbC7.rows.filter (fun r => !decide (r.expiresAt < 100)) ∧
      (∀ r ∈ dbC7.rows, ¬(r.expiresAt < 100) → r ∈ (cleanup dbC7 100).2.rows)) :=
  ⟨rfl, by decide, by decide, cleanup_spec dbC7 100 rfl⟩

/-- C4: useDownloadToken returns the single generic invalid outcome (null)
exactly when no token matches the secret, or the matching token is already
used, or its expiry is strictly before the current time — the same outcome
for expired as for used; otherwise it returns the associated document id and
sets usedAt on the matching token. -/
theorem useDownloadToken_spec (db : TokenDb) (now : Int) (token : String)
    (hupd : db.updateFails = false) :
    ((useDownloadToken db now token).1 = none ↔
      (findByToken db token = none ∨
        ∃ r, findByToken db token = some r ∧ (r.usedAt ≠ none ∨ r.expiresAt < now))) ∧
    (∀ r, findByToken db token = some r → r.usedAt = none → ¬(r.expiresAt < now) →
      (useDownloadToken db now token).1 = some r.documentId ∧
      (useDownloadToken db now token).2.rows =
        db.rows.map (fun x => if x.id == r.id then { x with usedAt := some now } else x)) := by
  rcases hft : findByToken db token with _ | r
  · constructor
    · simp [useDownloadToken, redeemCommit, validateAndGetDocument, hft]
    · intro r h
      exact absurd h (by simp)
  · rcases hu : r.usedAt with _ | t
    · by_cases he : r.expiresAt < now
      · constructor
        · simp [useDownloadToken, redeemCommit, validateAndGetDocument, hft, hu, he]
        · intro r' hr' _ he'
          rw [Option.some_inj] at hr'
          subst hr'
          exact absurd he he'
      · constructor
        · simp [useDownloadToken, redeemCommit, validateAndGetDocument, markAsUsed,
            hft, hu, he, hupd]
        · intro r' hr' _ _
          rw [Option.some_inj] at hr'
          subst hr'
          simp [useDownloadToken, redeemCommit, validateAndGetDocument, markAsUsed,
            hft, hu, he, hupd]
    · constructor
      · simp [useDownloadToken, redeemCommit, validateAndGetDocument, hft, hu]
      · intro r' hr' hu' _
        rw [Option.some_inj] at hr'
        subst hr'
        rw [hu] at hu'
        exact absurd hu' (by simp)

def secC4 : String := "sec-41"

def tokC4 : TokenRow :=
  { id := "tok-41", documentId := "doc-41", token := secC4, expiresAt := 100,
    usedAt := none, createdBy := "user-41", createdAt := 0 }

def dbC4 : TokenDb := { rows := [tokC4], updateFails := false, deleteFails := false }

/-- Witness for C4: a fresh unexpired token redeems to its document id and is
marked used; the same token presented two seconds after a one-second TTL
(expiry 1000, now 2000) is the generic invalid outcome even though unused. -/
theorem useDownloadToken_spec_witness :
    dbC4.updateFails = false ∧
    (useDownloadToken dbC4 50 secC4).1 = some (tokC4.documentId) ∧
    (useDownloadToken dbC4 50 secC4).2.rows =
      dbC4.rows.map (fun x => if x.id == tokC4.id then { x with usedAt := some 50 } else x) ∧
    ((useDownloadToken dbC4 2000 secC4).1 = none ↔
      (findByToken dbC4 secC4 = none ∨
        ∃ r, findByToken dbC4 secC4 = some r ∧ (r.usedAt ≠ none ∨ r.expiresAt < 2000))) ∧
    (useDownloadToken dbC4 2000 secC4).1 = none := by
  have h := useDownloadToken_spec dbC4 50 secC4 rfl
  have h2 := h.2 tokC4 (by decide) rfl (by decide)
  exact ⟨rfl, h2.1, h2.2, (useDownloadToken_spec dbC4 2000 secC4 rfl).1, by decide⟩

def secC1 : String := "sec-11"

def docIdC1 : String := "doc-11"

def tokC1 : TokenRow :=
  { id := "tok-11", documentId := docIdC1, token := secC1, expiresAt := 100,
    usedAt := none, createdBy := "user-11", createdAt := 0 }

def dbC1 : TokenDb := { rows := [tokC1], updateFails := false, deleteFails := false }

def usedTokC1 : TokenRow := { tokC1 with usedAt := some 10 }

def dbC1used : TokenDb := { rows := [usedTokC1], updateFails := false, deleteFails := false }

def idC1 : String := "tok-11"

/-- C1 (bug evidence): redemption is a separate read followed by a write, not
one atomic conditional update. Under the interleaving where both concurrent
redeemers of the same secret run their validation read before either commit,
both observe success — while sequential composition of the same two halves
correctly rejects the second call, showing the outcome depends on the
interleaving. Moreover the mark-used update is unguarded: it reports an
affected row even when usedAt is already set. -/
theorem useDownloadToken_not_atomic :
    ((concurrentDoubleRedeem dbC1 50 secC1).1.1 = some docIdC1 ∧
     (concurrentDoubleRedeem dbC1 50 secC1).1.2 = some docIdC1) ∧
    (useDownloadToken (useDownloadToken dbC1 50 secC1).2 50 secC1).1 = none ∧
    (markAsUsed dbC1used 60 idC1).1 = true := by decide

def secC8 : String := "sec-81"

def docIdC8 : String := "doc-81"

def idC8 : String := "tok-81"

def tokC8 : TokenRow :=
  { id := idC8, documentId := docIdC8, token := secC8, expiresAt := 10,
    usedAt := none, createdBy := "user-81", createdAt := 0 }

def dbC8 : TokenDb := { rows := [tokC8], updateFails := true, deleteFails := true }

/-- C8 (counterexample): storage failures in the token operations are not
surfaced — they are swallowed into benign results. With the delete failing,
cleanup reports a removal count of 0 as a plain success although an expired
token exists; with the update failing, markAsUsed reports false; and
useDownloadToken still reports success (the document id) although the
mark-used write failed and no row changed. -/
theorem tokenStorageFailure_swallowed :
    dbC8.deleteFails = true ∧ dbC8.rows ≠ [] ∧
    cleanup dbC8 20 = (0, dbC8) ∧
    dbC8.updateFails = true ∧
    markAsUsed dbC8 20 idC8 = (false, dbC8) ∧
    useDownloadToken dbC8 5 secC8 = (some docIdC8, dbC8) := by decide

/-- C8 (amended): a storage failure during a token operation is caught inside
the repository and converted into a benign result — markAsUsed reports false,
cleanup reports a removal count of 0 with no rows deleted — and
useDownloadToken ignores the failed mark-used write, still reporting the
document id with the store unchanged. -/
theorem tokenStorageFailure_benign (db : TokenDb) (now : Int) (id token : String) :
    (db.updateFails = true → markAsUsed db now id = (false, db)) ∧
    (db.deleteFails = true → cleanup db now = (0, db)) ∧
    (∀ r, db.updateFails = true → findByToken db token = some r → r.usedAt = none →
      ¬(r.expiresAt < now) → useDownloadToken db now token = (some r.documentId, db)) := by
  refine ⟨fun h => by simp [markAsUsed, h], fun h => by simp [cleanup, h], ?_⟩
  intro r hupd hft hu he
  simp [useDownloadToken, redeemCommit, validateAndGetDocument, markAsUsed, hft, hu, he, hupd]

/-- Witness for the amended C8: at the concrete failing store, the three
benign conversions hold. -/
theorem tokenStorageFailure_benign_witness :
    markAsUsed dbC8 20 idC8 = (false, dbC8) ∧
    cleanup dbC8 20 = (0, dbC8) ∧
    useDownloadToken dbC8 5 secC8 = (some docIdC8, dbC8) :=
  ⟨(tokenStorageFailure_benign dbC8 20 idC8 secC8).1 rfl,
   (tokenStorageFailure_benign dbC8 20 idC8 secC8).2.1 rfl,
   (tokenStorageFailure_benign dbC8 5 idC8 secC8).2.2 tokC8 rfl (by decide) rfl (by decide)⟩

/-! Theorems about the search engine. -/

/-- C5: a request carrying no meaningful criterion — no filename of trimmed
length at least 2, no nonblank content type, no tag of trimmed length at
least 2, no metadata entry with a nonblank key and a value of trimmed length
at least 2 — yields the empty page (no data, total 0, totalPages 0) as a
plain success, with zero storage queries issued; an owner-scope restriction
(uploadedBy) alone never counts, since it is left unconstrained here. -/
theorem search_significanceGate (db : DocDb) (o : SearchOptions)
    (hfn : ∀ f, o.filename = some f → (jsTrim f).length < 2)
    (hmt : ∀ m, o.mimeType = some m → (jsTrim m).length = 0)
    (htg : ∀ ts, o.tags = some ts → ∀ t ∈ ts, (jsTrim t).length < 2)
    (hmd : ∀ kvs, o.metadata = some kvs → ∀ kv ∈ kvs,
      (jsTrim kv.1).length = 0 ∨ (jsTrim kv.2).length < 2) :
    (search db o).1.data = [] ∧ (search db o).1.pagination.total = 0 ∧
    (search db o).1.pagination.totalPages = 0 ∧
    (search db o).1.pagination.page = o.page ∧
    (search db o).1.pagination.limit = o.limit ∧
    (search db o).2 = 0 := by
  have h1 : fnCriterion o = false := by
    unfold fnCriterion
    rcases hf : o.filename with _ | f
    · rfl
    · have := hfn f hf
      simp only [decide_eq_false_iff_not]
      omega
  have h2 : mtCriterion o = false := by
    unfold mtCriterion
    rcases hm : o.mimeType with _ | m
    · rfl
    · have := hmt m hm
      simp only [decide_eq_false_iff_not]
      omega
  have h3 : tagCriterion o = false := by
    unfold tagCriterion
    rcases ht : o.tags with _ | ts
    · rfl
    · have hall := htg ts ht
      have hany : ts.any (fun t => decide (2 ≤ (jsTrim t).length)) = false := by
        rw [List.any_eq_false]
        intro t htm
        have := hall t htm
        simp only [decide_eq_true_eq]
        omega
      simp [hany]
  have h4 : mdCriterion o = false := by
    unfold mdCriterion
    rcases hm : o.metadata with _ | kvs
    · rfl
    · have hall := hmd kvs hm
      have hany : kvs.any
          (fun kv => decide (1 ≤ (jsTrim kv.1).length) && decide (2 ≤ (jsTrim kv.2).length)) = false := by
        rw [List.any_eq_false]
        intro kv hkv
        have := hall kv hkv
        simp only [Bool.and_eq_true, decide_eq_true_eq, not_and]
        omega
      simp [hany]
  have hgate : hasSearchCriteria o = false := by
    simp [hasSearchCriteria, h1, h2, h3, h4]
  simp [search, hgate, emptySearchResult]

def ownerC5 : String := "user-51"

def docC5 : DocRow :=
  { id := "doc-51", filename := "report.pdf", originalName := "report.pdf",
    mimeType := "application/pdf", size := 10, path := "p-51",
    uploadedBy := ownerC5, createdAt := 1, updatedAt := 1 }

def dbC5 : DocDb := { documents := [docC5], tags := [], metadata := [] }

def optsC5 : SearchOptions :=
  { page := 2, limit := 20, filename := none, mimeType := none,
    uploadedBy := some ownerC5, tags := none, metadata := none,
    sortBy := none, sortOrder := none }

/-- Witness for C5: a request with only page 2 and an owner scope, against a
store that does contain a document of that owner, returns the empty page with
no storage query. -/
theorem search_significanceGate_witness :
    dbC5.documents ≠ [] ∧
    ((search dbC5 optsC5).1.data = [] ∧ (search dbC5 optsC5).1.pagination.total = 0 ∧
    (search dbC5 optsC5).1.pagination.totalPages = 0 ∧
    (search dbC5 optsC5).1.pagination.page = optsC5.page ∧
    (search dbC5 optsC5).1.pagination.limit = optsC5.limit ∧
    (search dbC5 optsC5).2 = 0) :=
  ⟨by decide,
   search_significanceGate dbC5 optsC5
    (fun f h => Option.noConfusion h) (fun m h => Option.noConfusion h)
    (fun ts h => Option.noConfusion h) (fun kvs h => Option.noConfusion h)⟩

theorem leadsWith_map (f : Char → Char) :
    ∀ n h : List Char, leadsWith n h = true → leadsWith (n.map f) (h.map f) = true
  | [], _, _ => by simp [leadsWith]
  | _ :: _, [], h => by simp [leadsWith] at h
  | a :: as, b :: bs, h => by
    simp only [leadsWith, Bool.and_eq_true, beq_iff_eq] at h
    simp only [List.map_cons, leadsWith, Bool.and_eq_true, beq_iff_eq]
    exact ⟨by rw [h.1], leadsWith_map f as bs h.2⟩

theorem containsSub_map (f : Char → Char) (n : List Char) :
    ∀ h : List Char, containsSub n h = true → containsSub (n.map f) (h.map f) = true
  | [], hc => by
    simp only [containsSub] at hc
    simpa [containsSub] using leadsWith_map f n [] hc
  | c :: rest, hc => by
    simp only [containsSub, Bool.or_eq_true] at hc
    simp only [List.map_cons, containsSub, Bool.or_eq_true]
    rcases hc with hc | hc
    · exact Or.inl (by simpa using leadsWith_map f n (c :: rest) hc)
    · exact Or.inr (containsSub_map f n rest hc)

theorem toList_strLower (s : String) : (strLower s).toList = s.toList.map Char.toLower := rfl

/-- C10: when the filename criterion is meaningful (trimmed length at least
2), the term search pushes is the lowercased trimmed filename, and a document
whose stored filename or whose original upload-time name contains that term
as a substring satisfies the filename sub-filter — the original name is
matched as well, not only the stored filename. -/
theorem search_filenameCond_originalName (o : SearchOptions) (f : String) (d : DocRow)
    (hf : o.filename = some f) (hlen : 2 ≤ (jsTrim f).length)
    (hmatch : strHas d.filename (strLower (jsTrim f)) = true ∨
      strHas d.originalName (strLower (jsTrim f)) = true) :
    filenameTermOf o = some (strLower (jsTrim f)) ∧
    filenameCond (strLower (jsTrim f)) d = true := by
  constructor
  · unfold filenameTermOf
    rw [hf]
    simp [hlen]
  · unfold filenameCond sqlLikeHas strHas
    rw [Bool.or_eq_true_iff]
    rcases hmatch with h | h
    · exact Or.inl (containsSub_map Char.toLower _ _ h)
    · exact Or.inr (containsSub_map Char.toLower _ _ h)

def fC10 : String := " Report "

def docC10 : DocRow :=
  { id := "doc-101", filename := "a1b2.bin", originalName := "annual-report.pdf",
    mimeType := "application/pdf", size := 10, path := "p-101",
    uploadedBy := "user-101", createdAt := 1, updatedAt := 1 }

def optsC10 : SearchOptions :=
  { page := 1, limit := 20, filename := some fC10, mimeType := none,
    uploadedBy := none, tags := none, metadata := none,
    sortBy := none, sortOrder := none }

/-- Witness for C10: the term derived from the request " Report " is
"report"; it is a substring of the original name only, and the document
satisfies the filename sub-filter. -/
theorem search_filenameCond_originalName_witness :
    optsC10.filename = some fC10 ∧ 2 ≤ (jsTrim fC10).length ∧
    strHas docC10.filename (strLower (jsTrim fC10)) = false ∧
    strHas docC10.originalName (strLower (jsTrim fC10)) = true ∧
    (filenameTermOf optsC10 = some (strLower (jsTrim fC10)) ∧
      filenameCond (strLower (jsTrim fC10)) docC10 = true) :=
  ⟨rfl, by decide, by decide, by decide,
   search_filenameCond_originalName optsC10 fC10 docC10 rfl (by decide)
     (Or.inr (by decide))⟩

theorem mem_dedupAux (i : String) :
    ∀ (l seen : List String), (i ∈ dedupAux seen l ↔ (i ∈ l ∧ ¬i ∈ seen))
  | [], seen => by simp [dedupAux]
  | a :: as, seen => by
    unfold dedupAux
    by_cases h : seen.contains a
    · have ha : a ∈ seen := by simpa using h
      rw [if_pos h, mem_dedupAux i as seen]
      by_cases hia : i = a
      · subst hia
        simp [ha]
      · simp [hia]
    · have ha : ¬a ∈ seen := by simpa using h
      rw [if_neg h]
      by_cases hia : i = a
      · subst hia
        simp [ha]
      · rw [List.mem_cons]
        simp only [hia, false_or]
        rw [mem_dedupAux i as (a :: seen)]
        simp [hia]

theorem mem_dedupStr (l : List String) (i : String) : i ∈ dedupStr l ↔ i ∈ l := by
  rw [dedupStr, mem_dedupAux]
  simp

theorem mem_tagDocIds (db : DocDb) (ts : List String) (i : String) :
    i ∈ tagDocIds db ts ↔ ∃ r ∈ db.tags, r.documentId = i ∧ r.tag ∈ meaningfulTags ts := by
  unfold tagDocIds
  rw [mem_dedupStr]
  simp [List.mem_map, List.mem_filter]
  aesop

theorem mem_metaDocIds (db : DocDb) (kvs : List (String × String)) (i : String) :
    i ∈ metaDocIds db kvs ↔ ∃ r ∈ db.metadata, r.documentId = i ∧
      metaRowCond (meaningfulMeta kvs) r = true := by
  unfold metaDocIds
  rw [mem_dedupStr]
  simp [List.mem_map, List.mem_filter]
  aesop

/-- Unfolding of the metadata where-clause: some meaningful requested entry
with an exactly matching trimmed key and a LIKE-contained trimmed value. -/
theorem metaRowCond_iff (l : List (String × String)) (r : MetaRow) :
    metaRowCond l r = true ↔
      ∃ kv ∈ l, r.key = jsTrim kv.1 ∧ sqlLikeHas r.value (jsTrim kv.2) = true := by
  unfold metaRowCond
  rw [List.any_eq_true]
  simp

/-- The direct per-document reading of the tag sub-filter: the document has
some tag among the meaningful requested tags (trivially true when tags were
not requested). -/
def tagSatB (db : DocDb) (o : SearchOptions) (i : String) : Bool :=
  match o.tags with
  | some ts =>
    if ts.isEmpty then true
    else db.tags.any (fun r => r.documentId == i && (meaningfulTags ts).contains r.tag)
  | none => true

/-- The direct per-document reading of the metadata sub-filter: the document
has some metadata entry matching a meaningful requested key/value pair
(trivially true when metadata was not requested). -/
def metaSatB (db : DocDb) (o : SearchOptions) (i : String) : Bool :=
  match o.metadata with
  | some kvs =>
    if kvs.isEmpty then true
    else db.metadata.any (fun r => r.documentId == i && metaRowCond (meaningfulMeta kvs) r)
  | none => true

/-- Membership in the resolved tag id set coincides with the direct reading. -/
theorem inIds_tagPhase (db : DocDb) (o : SearchOptions) (i : String) :
    inIds (tagPhase db o).1 i = tagSatB db o i := by
  unfold tagPhase tagSatB
  rcases ht : o.tags with _ | ts
  · rfl
  · by_cases hemp : ts.isEmpty
    · simp [hemp, inIds]
    · by_cases hm : (meaningfulTags ts).isEmpty
      · rw [List.isEmpty_iff] at hm
        simp only [hemp, hm, Bool.false_eq_true, if_false, if_true, List.isEmpty_iff]
        simp [inIds, hm, hemp]
      · simp only [hemp, hm, Bool.false_eq_true, if_false]
        have hml : (tagDocIds db ts).contains i = true ↔
            (db.tags.any (fun r => r.documentId == i && (meaningfulTags ts).contains r.tag)) = true := by
          rw [List.any_eq_true]
          constructor
          · intro hc
            have hmem : i ∈ tagDocIds db ts := by simpa using hc
            rw [mem_tagDocIds] at hmem
            obtain ⟨r, hr, hd, htag⟩ := hmem
            exact ⟨r, hr, by simp [hd, htag]⟩
          · rintro ⟨r, hr, hcond⟩
            simp only [Bool.and_eq_true, beq_iff_eq] at hcond
            have hmem : i ∈ tagDocIds db ts :=
              (mem_tagDocIds db ts i).2 ⟨r, hr, hcond.1, by simpa using hcond.2⟩
            simpa using hmem
        simp only [inIds]
        exact Bool.eq_iff_iff.mpr (by simpa using hml)

/-- Membership in the resolved metadata id set coincides with the direct reading. -/
theorem inIds_metaPhase (db : DocDb) (o : SearchOptions) (i : String) :
    inIds (metaPhase db o).1 i = metaSatB db o i := by
  unfold metaPhase metaSatB
  rcases hm : o.metadata with _ | kvs
  · rfl
  · by_cases hemp : kvs.isEmpty
    · simp [hemp, inIds]
    · by_cases hmm : (meaningfulMeta kvs).isEmpty
      · rw [List.isEmpty_iff] at hmm
        simp [hemp, hmm, inIds, metaRowCond]
      · simp only [hemp, hmm, Bool.false_eq_true, if_false]
        have hml : (metaDocIds db kvs).contains i = true ↔
            (db.metadata.any (fun r => r.documentId == i && metaRowCond (meaningfulMeta kvs) r)) = true := by
          rw [List.any_eq_true]
          constructor
          · intro hc
            have hmem : i ∈ metaDocIds db kvs := by simpa using hc
            rw [mem_metaDocIds] at hmem
            obtain ⟨r, hr, hd, hcond⟩ := hmem
            exact ⟨r, hr, by simp [hd, hcond]⟩
          · rintro ⟨r, hr, hcond⟩
            simp only [Bool.and_eq_true, beq_iff_eq] at hcond
            have hmem : i ∈ metaDocIds db kvs :=
              (mem_metaDocIds db kvs i).2 ⟨r, hr, hcond.1, hcond.2⟩
            simpa using hmem
        simp only [inIds]
        exact Bool.eq_iff_iff.mpr (by simpa using hml)

/-- C6: the tag sub-filter resolves to the distinct ids of documents having
any one of the meaningful (lowercased, trimmed, length at least 2) requested
tags, and the metadata sub-filter to the distinct ids of documents having any
entry whose key equals a meaningful requested trimmed key and whose value
LIKE-contains its trimmed value (OR within each sub-filter); a requested
sub-filter whose meaningful term set is empty resolves to the empty id set
with no query, and a sub-filter resolving to the empty id set makes search
return the empty page before the count and fetch queries run; otherwise the
total counts exactly the documents satisfying the primary filter AND the tag
sub-filter AND the metadata sub-filter. -/
theorem search_tagMeta_intersection (db : DocDb) (o : SearchOptions) :
    (∀ ts, o.tags = some ts →
      ∀ i, i ∈ tagDocIds db ts ↔
        ∃ r ∈ db.tags, r.documentId = i ∧ r.tag ∈ meaningfulTags ts) ∧
    (∀ kvs, o.metadata = some kvs →
      ∀ i, i ∈ metaDocIds db kvs ↔
        ∃ r ∈ db.metadata, r.documentId = i ∧
          ∃ kv ∈ meaningfulMeta kvs, r.key = jsTrim kv.1 ∧
            sqlLikeHas r.value (jsTrim kv.2) = true) ∧
    (∀ ts, o.tags = some ts → ts ≠ [] → meaningfulTags ts = [] →
      tagPhase db o = (some [], 0)) ∧
    (∀ kvs, o.metadata = some kvs → kvs ≠ [] → meaningfulMeta kvs = [] →
      metaPhase db o = (some [], 0)) ∧
    (hasSearchCriteria o = true → idsEmpty (tagPhase db o).1 = true →
      search db o = (emptySearchResult o.page o.limit, (tagPhase db o).2)) ∧
    (hasSearchCriteria o = true → idsEmpty (tagPhase db o).1 = false →
      idsEmpty (metaPhase db o).1 = true →
      search db o = (emptySearchResult o.page o.limit,
        (tagPhase db o).2 + (metaPhase db o).2)) ∧
    (hasSearchCriteria o = true → idsEmpty (tagPhase db o).1 = false →
      idsEmpty (metaPhase db o).1 = false →
      (search db o).1.pagination.total =
        (db.documents.filter
          (fun d => mainCond o d && tagSatB db o d.id && metaSatB db o d.id)).length) := by
  have hfc : db.documents.filter
      (fun d => mainCond o d && inIds (tagPhase db o).1 d.id && inIds (metaPhase db o).1 d.id) =
      db.documents.filter
        (fun d => mainCond o d && tagSatB db o d.id && metaSatB db o d.id) :=
    List.filter_congr (fun d _ => by rw [inIds_tagPhase, inIds_metaPhase])
  refine ⟨fun ts _ i => mem_tagDocIds db ts i, ?_, ?_, ?_, ?_, ?_, ?_⟩
  · intro kvs _ i
    rw [mem_metaDocIds]
    simp only [metaRowCond_iff]
  · intro ts hts hne hm
    unfold tagPhase
    rw [hts]
    have h1 : ts.isEmpty = false := by
      cases ts
      · exact absurd rfl hne
      · rfl
    simp [h1, hm]
  · intro kvs hkvs hne hm
    unfold metaPhase
    rw [hkvs]
    have h1 : kvs.isEmpty = false := by
      cases kvs
      · exact absurd rfl hne
      · rfl
    simp [h1, hm]
  · intro hg he
    unfold search
    simp [hg, he]
  · intro hg h1 h2
    unfold search
    simp [hg, h1, h2]
  · intro hg h1 h2
    unfold search
    simp only [hg, Bool.not_true, Bool.false_eq_true, if_false, h1, h2]
    rw [hfc]
    by_cases hz :
        (db.documents.filter
          (fun d => mainCond o d && tagSatB db o d.id && metaSatB db o d.id)).length = 0
    · simp [hz, emptySearchResult]
    · simp [hz]

def idC6a : String := "doc-a"

def idC6b : String := "doc-b"

def idC6c : String := "doc-c"

def docC6a : DocRow :=
  { id := idC6a, filename := "rep-a.txt", originalName := "rep-a.txt",
    mimeType := "text/plain", size := 1, path := "pa", uploadedBy := "u6",
    createdAt := 1, updatedAt := 1 }

def docC6b : DocRow :=
  { id := idC6b, filename := "other.bin", originalName := "other.bin",
    mimeType := "text/plain", size := 1, path := "pb", uploadedBy := "u6",
    createdAt := 2, updatedAt := 2 }

def docC6c : DocRow :=
  { id := idC6c, filename := "rep-c.txt", originalName := "rep-c.txt",
    mimeType := "text/plain", size := 1, path := "pc", uploadedBy := "u6",
    createdAt := 3, updatedAt := 3 }

def dbC6 : DocDb :=
  { documents := [docC6a, docC6b, docC6c],
    tags := [⟨idC6a, "ax"⟩, ⟨idC6a, "yy"⟩, ⟨idC6b, "yy"⟩, ⟨idC6b, "zz"⟩, ⟨idC6c, "zz"⟩],
    metadata := [] }

def fnC6 : String := "rep"

def tagsC6 : List String := ["ax", "zz"]

def optsC6 : SearchOptions :=
  { page := 1, limit := 20, filename := some fnC6, mimeType := none,
    uploadedBy := none, tags := some tagsC6, metadata := none,
    sortBy := none, sortOrder := none }

/-- Witness for C6: documents A (tags ax, yy), B (tags yy, zz), C (tag zz);
searching tags [ax, zz] (OR within the tag filter) together with a filename
substring matching only A and C returns exactly A and C — AND across filter
types, OR within a filter type. -/
theorem search_tagMeta_intersection_witness :
    (search dbC6 optsC6).1.pagination.total = 2 ∧
    (search dbC6 optsC6).1.data.map (fun d => d.id) = [idC6c, idC6a] := by
  have h := (search_tagMeta_intersection dbC6 optsC6).2.2.2.2.2.2
    (by decide) (by decide) (by decide)
  constructor
  · rw [h]
    decide
  · decide

end HDM

